import Mathlib

/-!
Verification development for the `runner-tailscale-sync` repository.

Shallow embedding of the JavaScript sources:
* `src/adapters/tailscale.js` (`findPeersWithTag`)
* `src/core/runner-detector.js` (`detectPreviousRunner` pipeline)
* `src/core/data-sync.js` (`pullData` pipeline, first module revision)
* `src/adapters/ssh.js` (`stopServices`, second — exported — definition)
* `src/core/sync-orchestrator.js` (`plan` / `execute`)
* `config.js` (`Config` constructor and `validate`)

External collaborators (the `tailscale status --json` dump, the SSH channel,
the filesystem, the transfer tools and `Date.parse`) are modelled as explicit
inputs / oracle functions.  JavaScript string primitives used by the sources
(`trim`, `split(",")`, `includes`, `startsWith`, `endsWith`, truthiness of
strings) are re-implemented over character lists so that every definition is
executable by the kernel.
-/

namespace RunnerSync

/-! ### JavaScript string primitives, modelled over character lists -/

/-- Model of JS `String.prototype.trim` whitespace (the characters the
sources can realistically meet in environment values). -/
def isWsChar (c : Char) : Bool :=
  c == ' ' || c == '\t' || c == '\n' || c == '\r'

/-- Model of JS `String.prototype.trim`. -/
def jsTrim (s : String) : String :=
  ⟨((s.toList.dropWhile isWsChar).reverse.dropWhile isWsChar).reverse⟩

/-- Split a character list on a separator character; `[]` yields `[[]]`,
matching JS `"".split(",") = [""]`. -/
def splitOnChar (sep : Char) (l : List Char) : List (List Char) :=
  l.foldr
    (fun c acc =>
      match acc with
      | [] => [[c]]
      | cur :: rest => if c == sep then [] :: cur :: rest else (c :: cur) :: rest)
    [[]]

/-- Model of JS `s.split(",")`. -/
def jsSplitComma (s : String) : List String :=
  (splitOnChar ',' s.toList).map (fun l => ⟨l⟩)

/-- `listLeadsWith needle hay` is true when `hay` begins with `needle`. -/
def listLeadsWith [BEq α] : List α → List α → Bool
  | [], _ => true
  | _ :: _, [] => false
  | a :: as, b :: bs => a == b && listLeadsWith as bs

/-- `listContainsSeq needle hay` is true when `needle` occurs contiguously
inside `hay`; model of JS `String.prototype.includes`. -/
def listContainsSeq [BEq α] (needle : List α) : List α → Bool
  | [] => needle.isEmpty
  | b :: bs => listLeadsWith needle (b :: bs) || listContainsSeq needle bs

/-- Model of JS `s.includes(pat)`. -/
def jsIncludes (s pat : String) : Bool :=
  listContainsSeq pat.toList s.toList

/-- Model of JS `s.startsWith(pre)`. -/
def strStartsWith (s pre : String) : Bool :=
  listLeadsWith pre.toList s.toList

/-- Model of JS `s.endsWith(suf)`. -/
def strEndsWith (s suf : String) : Bool :=
  listLeadsWith suf.toList.reverse s.toList.reverse

/-- Model of `s.replace(/\.$/, "")` (strip one trailing dot). -/
def stripTrailingDot (s : String) : String :=
  if strEndsWith s "." then ⟨s.toList.dropLast⟩ else s

/-- Model of `s.replace(/ssh$/, "scp")` from `data-sync.js`. -/
def replaceSshSuffix (s : String) : String :=
  if strEndsWith s "ssh" then (⟨s.toList.take (s.toList.length - 3)⟩ : String) ++ "scp" else s

/-- Model of JS `a || d` for an optional string `a` (both `undefined` and the
empty string are falsy). -/
def jsOrString (o : Option String) (d : String) : String :=
  match o with
  | some s => if s = "" then d else s
  | none => d

/-- `tags.split(",").map(s => s.trim()).filter(Boolean)`, the comma-separated
tag-filter / service-list parsing shared by `config.js`,
`runner-detector.js` and `tailscale.js`. -/
def parseTags (tags : String) : List String :=
  ((jsSplitComma tags).map jsTrim).filter (fun s => s ≠ "")

/-! ### Error taxonomy (`utils/errors.js`) -/

/-- Thrown error values distinguished by class, carrying `err.message`. -/
inductive JsError
  | validationError (msg : String)
  | syncError (msg : String)
  | genericError (msg : String)
  deriving Repr, DecidableEq

instance {ε α : Type} [DecidableEq ε] [DecidableEq α] : DecidableEq (Except ε α) := fun x y =>
  match x, y with
  | .ok a, .ok b => if h : a = b then .isTrue (by rw [h]) else .isFalse (by simp [h])
  | .error a, .error b => if h : a = b then .isTrue (by rw [h]) else .isFalse (by simp [h])
  | .ok _, .error _ => .isFalse (by simp)
  | .error _, .ok _ => .isFalse (by simp)

/-! ### The `tailscale status --json` data model -/

/-- One entry of `status.Peer` as read by `findPeersWithTag`.  `Created` is
present in the Tailscale status dump but never read by the sources; it is the
"registration timestamp" of the spec's data model.  Missing `Tags` /
`TailscaleIPs` arrays are modelled as `[]` (the sources apply `|| []` /
optional chaining before every use). -/
structure PeerInfo where
  HostName : String
  DNSName : Option String
  TailscaleIPs : List String
  Tags : List String
  Online : Bool
  LastSeen : Option String
  Created : Option String
  deriving Repr, DecidableEq

/-- The `status.Self` node as read by the sources. -/
structure SelfInfo where
  ID : String
  TailscaleIPs : List String
  deriving Repr, DecidableEq

/-- A decoded `tailscale status --json` dump; `Peer` keeps
`Object.entries` iteration order. -/
structure Status where
  Self : Option SelfInfo
  Peer : Option (List (String × PeerInfo))
  deriving Repr, DecidableEq

/-- Peer record pushed by `findPeersWithTag` (tailscale.js:348-356). -/
structure Peer where
  id : String
  hostname : String
  dnsName : Option String
  ips : List String
  online : Bool
  lastSeen : Option String
  tags : List String
  deriving Repr, DecidableEq

/-! ### `findPeersWithTag` (tailscale.js:306-364) -/

/-- The `peerId === selfId` comparison (tailscale.js:328); when `Self` is
absent, `selfId` is `undefined` and no string key equals it. -/
def selfSkip (selfId : Option String) (peerId : String) : Bool :=
  match selfId with
  | some s => peerId == s
  | none => false

/-- One iteration of the peer loop (tailscale.js:326-360): skip self, then
keep the peer when it is online and carries one of the filter tags
(an empty filter list keeps every peer).  Tag comparison is literal
(`tagList.some(tag => peerInfo.Tags?.includes(tag))`). -/
def peerEntryKeep (tagList : List String) (selfId : Option String)
    (e : String × PeerInfo) : Option Peer :=
  if selfSkip selfId e.1 then none
  else
    let hasSameTag := if tagList.isEmpty then true
      else tagList.any (fun t => e.2.Tags.contains t)
    if hasSameTag && e.2.Online then
      some { id := e.1
             hostname := e.2.HostName
             dnsName := e.2.DNSName.map stripTrailingDot
             ips := e.2.TailscaleIPs
             online := e.2.Online
             lastSeen := e.2.LastSeen.bind (fun s => if s = "" then none else some s)
             tags := e.2.Tags }
    else none

/-- `findPeersWithTag` for an already-parsed tag array (the form the
runner detector calls).  A missing status or missing `Peer` map yields `[]`. -/
def findPeersWithTagList (tagList : List String) (status? : Option Status) : List Peer :=
  match status? with
  | none => []
  | some status =>
    match status.Peer with
    | none => []
    | some entries => entries.filterMap (peerEntryKeep tagList (status.Self.map SelfInfo.ID))

/-- `findPeersWithTag` for a string tag filter: comma-split, trimmed,
empties dropped (tailscale.js:308-313), then the literal tag match. -/
def findPeersWithTag (tags : String) (status? : Option Status) : List Peer :=
  findPeersWithTagList (parseTags tags) status?

/-! ### `runner-detector.js` -/

/-- The remote probe command of runner-detector.js:83. -/
def dataCheckCmd : String := "test -d .runner-data && echo \"yes\""

/-- The SSH channel as an oracle: `check host` is `ssh.checkConnection` and
`capture host cmd` is `ssh.executeCommandCapture` (which returns `null`, here
`none`, on any failure). -/
structure SshOracle where
  check : String → Bool
  capture : String → String → Option String

/-- `peer.accessible` as computed by the first loop of
runner-detector.js:62-71: `false` when the peer has no address, otherwise the
result of `ssh.checkConnection` on its first address. -/
def accessibleOf (o : SshOracle) (p : Peer) : Bool :=
  match p.ips.head? with
  | some h => o.check h
  | none => false

/-- `peer.hasData` as computed by the second loop of
runner-detector.js:75-87: the captured output of the probe command must equal
`"yes"` exactly. -/
def hasDataOf (o : SshOracle) (p : Peer) : Bool :=
  match p.ips.head? with
  | some h => o.capture h dataCheckCmd == some "yes"
  | none => false

/-- Sort key of runner-detector.js:93-94:
`a.lastSeen ? Date.parse(a.lastSeen) : 0`, with `Date.parse` supplied by the
host runtime as the oracle `dateParse`. -/
def lastSeenKey (dateParse : String → Int) (p : Peer) : Int :=
  match p.lastSeen with
  | some s => dateParse s
  | none => 0

/-- Stable insertion step for the descending sort: the incoming element `x`
precedes every already-placed element whose key is `≤` its own, so elements
with equal keys keep their original relative order. -/
def insertByKeyDesc (k : Peer → Int) (x : Peer) : List Peer → List Peer
  | [] => [x]
  | y :: ys => if k y ≤ k x then x :: y :: ys else y :: insertByKeyDesc k x ys

/-- Model of `.slice().sort((a, b) => tb - ta)` (runner-detector.js:91-96).
`Array.prototype.sort` is stable with a consistent comparator, and the stable
descending sort of a list is unique, so this stable insertion sort computes
exactly the same list. -/
def sortByKeyDesc (k : Peer → Int) : List Peer → List Peer
  | [] => []
  | x :: xs => insertByKeyDesc k x (sortByKeyDesc k xs)

/-- Result of runner-detector.js `execute`. -/
structure DetectExec where
  found : Bool
  peer : Option Peer
  deriving Repr, DecidableEq

/-- The confirmed candidates of a run: tag-matching online peers that passed
the reachability probe and the data-presence check, in iteration order
(runner-detector.js:73-91). -/
def detectorCandidates (o : SshOracle) (tagList : List String)
    (status? : Option Status) : List Peer :=
  ((findPeersWithTagList tagList status?).filter (accessibleOf o)).filter (hasDataOf o)

/-- `execute` of runner-detector.js:46-114: fetch tag-matching peers, return
early when none, otherwise probe reachability, probe data presence, sort the
confirmed candidates by descending `lastSeen` and take the first. -/
def detectorExecute (dateParse : String → Int) (o : SshOracle)
    (tagList : List String) (status? : Option Status) : DetectExec :=
  let peers := findPeersWithTagList tagList status?
  if peers.isEmpty then { found := false, peer := none }
  else
    match (sortByKeyDesc (lastSeenKey dateParse) (detectorCandidates o tagList status?)).head? with
    | none => { found := false, peer := none }
    | some p => { found := true, peer := some p }

/-- `report` output of runner-detector.js:119-135. -/
structure DetectReport where
  success : Bool
  previousRunner : Option Peer
  deriving Repr, DecidableEq

/-- `detectPreviousRunner` (runner-detector.js:140-158): parse the configured
tag string, fail validation when no tag remains, else execute and report.
Both report branches return `success: true`; only validation throws. -/
def detectPreviousRunner (dateParse : String → Int) (o : SshOracle)
    (tailscaleTags : String) (status? : Option Status) : Except JsError DetectReport :=
  let tags := parseTags tailscaleTags
  if tags.isEmpty then
    .error (.genericError "Validation failed: Tailscale tag is required")
  else
    let r := detectorExecute dateParse o tags status?
    .ok { success := true, previousRunner := r.peer }

/-! ### `config.js` -/

/-- The environment variables the `Config` constructor reads (each one a
string when set, absent otherwise). -/
structure Env where
  TAILSCALE_CLIENT_ID : Option String
  TAILSCALE_CLIENT_SECRET : Option String
  TAILSCALE_TAGS : Option String
  TAILSCALE_ENABLE : Option String
  SERVICES_TO_STOP : Option String
  GIT_PUSH_ENABLED : Option String
  GIT_BRANCH : Option String
  SSH_PATH : Option String
  RSYNC_PATH : Option String
  deriving Repr, DecidableEq

/-- Modelled from the spec: `utils/constants.js` is not under src/; the
repository documentation uses `tag:ci` as the default tag filter
(`CONST.DEFAULT_TAG`). -/
def DEFAULT_TAG : String := "tag:ci"

/-- config.js:30: `["1", 1].includes(process.env.TAILSCALE_ENABLE?.trim())`.
The environment value is a string (or absent, when optional chaining yields
`undefined`), so the `includes` test can only ever match the string `"1"`. -/
def tailscaleEnableOf (e : Option String) : Bool :=
  match e with
  | some s => jsTrim s == "1"
  | none => false

/-- config.js:45: `String(process.env.GIT_PUSH_ENABLED || "1").trim() === "1"`. -/
def gitEnabledOf (e : Option String) : Bool :=
  jsTrim (jsOrString e "1") == "1"

/-- The configuration object assembled by the `Config` constructor
(config.js:12-51); `runnerDataDir` stands for
`path.join(cwd, CONST.RUNNER_DATA_DIR)`. -/
structure Config where
  runnerDataDir : String
  tailscaleClientId : String
  tailscaleClientSecret : String
  tailscaleTags : String
  tailscaleEnable : Bool
  servicesToStop : List String
  gitEnabled : Bool
  gitBranch : String
  sshPath : String
  rsyncPath : String
  deriving Repr, DecidableEq

/-- The `Config` constructor's environment-derived fields (config.js:27-50). -/
def Config.ofEnv (runnerDataDir : String) (e : Env) : Config :=
  { runnerDataDir
    tailscaleClientId := jsOrString e.TAILSCALE_CLIENT_ID ""
    tailscaleClientSecret := jsOrString e.TAILSCALE_CLIENT_SECRET ""
    tailscaleTags := jsOrString e.TAILSCALE_TAGS DEFAULT_TAG
    tailscaleEnable := tailscaleEnableOf e.TAILSCALE_ENABLE
    servicesToStop := parseTags (jsOrString e.SERVICES_TO_STOP "cloudflared,pocketbase,http-server")
    gitEnabled := gitEnabledOf e.GIT_PUSH_ENABLED
    gitBranch := jsOrString e.GIT_BRANCH "main"
    sshPath := jsOrString e.SSH_PATH "ssh"
    rsyncPath := jsOrString e.RSYNC_PATH "rsync" }

/-- `Config.validate` (config.js:100-113): credential errors are collected
only when `tailscaleEnable` is set. -/
def Config.validate (c : Config) : List String :=
  if c.tailscaleEnable then
    (if c.tailscaleClientId = "" then
      ["TAILSCALE_CLIENT_ID is required when TAILSCALE_ENABLE=1"] else []) ++
    (if c.tailscaleClientSecret = "" then
      ["TAILSCALE_CLIENT_SECRET is required when TAILSCALE_ENABLE=1"] else [])
  else []

/-! ### `data-sync.js` (first module revision — the one carrying
`--ignore-missing-args` and the metadata-aware `parseInput`) -/

/-- `previousRunner.metadata` as read by data-sync.js:55-63:
`metadata.runner?.user`, `metadata.runner?.runnerDataDir`,
`metadata.env?.USER`. -/
structure RunnerMetadata where
  user : Option String
  runnerDataDir : Option String
  envUser : Option String
  deriving Repr, DecidableEq

/-- The previous-runner value consumed by `pullData` (its `ips` array and
optional metadata record). -/
structure SyncPeer where
  ips : List String
  metadata : Option RunnerMetadata
  deriving Repr, DecidableEq

/-- `parseInput` output of data-sync.js:48-78. -/
structure SyncInput where
  localDataDir : String
  remoteHost : Option String
  remoteHostRaw : Option String
  remoteDataDir : String
  remoteUser : String
  rsyncPath : String
  sshPath : String
  deriving Repr, DecidableEq

/-- `parseInput` (data-sync.js:48-78): the remote user prefers
`metadata.runner.user` when truthy and not `"unknown"`, else
`metadata.env.USER`, else `"root"`; the data directory prefers the metadata
record; the host is the peer's first address prefixed with `user@`. -/
def dataSyncParseInput (c : Config) (prev : SyncPeer) : SyncInput :=
  let remoteHostRaw := prev.ips.head?
  let ud : String × String :=
    match prev.metadata with
    | none => ("root", c.runnerDataDir)
    | some m =>
      let u := match m.user with
        | some mu => if mu ≠ "" ∧ mu ≠ "unknown" then mu else jsOrString m.envUser "root"
        | none => jsOrString m.envUser "root"
      (u, jsOrString m.runnerDataDir c.runnerDataDir)
  { localDataDir := c.runnerDataDir
    remoteHost := remoteHostRaw.map (fun h => ud.1 ++ "@" ++ h)
    remoteHostRaw := remoteHostRaw
    remoteDataDir := ud.2
    remoteUser := ud.1
    rsyncPath := c.rsyncPath
    sshPath := c.sshPath }

/-- JS truthiness test for an optional string (both `null`/`undefined` and
`""` are falsy). -/
def optFalsy (o : Option String) : Bool :=
  match o with
  | some s => s = ""
  | none => true

/-- `validate` (data-sync.js:83-94) error collection. -/
def dataSyncValidate (i : SyncInput) : List String :=
  (if i.localDataDir = "" then ["Local data directory is required"] else []) ++
  (if optFalsy i.remoteHost then ["Remote host is required"] else [])

/-- JS template-literal interpolation of a possibly-null value. -/
def jsInterpOpt (o : Option String) : String :=
  match o with
  | some s => s
  | none => "null"

/-- `plan` output of data-sync.js:99-110. -/
structure SyncPlan where
  source : String
  destination : String
  remoteHost : Option String
  remoteHostRaw : Option String
  remoteDataDir : String
  rsyncPath : String
  sshPath : String
  deriving Repr, DecidableEq

/-- `plan` (data-sync.js:99-110): `source` is
`` `${input.remoteHost}:${input.remoteDataDir}/` ``. -/
def dataSyncPlan (i : SyncInput) : SyncPlan :=
  { source := jsInterpOpt i.remoteHost ++ ":" ++ i.remoteDataDir ++ "/"
    destination := i.localDataDir
    remoteHost := i.remoteHost
    remoteHostRaw := i.remoteHostRaw
    remoteDataDir := i.remoteDataDir
    rsyncPath := i.rsyncPath
    sshPath := i.sshPath }

/-- Modelled from the spec: `utils/constants.js` is not under src/.  Both
transfer attempts run under this single per-attempt timeout
(`CONST.RSYNC_TIMEOUT`); the repository examples use 300000 ms. -/
def RSYNC_TIMEOUT : Nat := 300000

/-- One `process_adapter.runWithTimeout(cmd, timeout, ...)` invocation. -/
structure Attempt where
  cmd : List String
  timeoutMs : Nat
  deriving Repr, DecidableEq

/-- External transfer collaborators of data-sync.js `execute`: the outcome of
each `runWithTimeout` call (`.error msg` models a thrown error whose
`err.message` is `msg`) and the value `fs.getDirSize(destination)` returns
after each successful transfer. -/
structure TransportOracle where
  rsyncOutcome : Except String Unit
  scpOutcome : Except String Unit
  sizeAfterRsync : Nat
  sizeAfterScp : Nat

/-- `execute`'s internal result object (data-sync.js:150-196). -/
structure SyncExecResult where
  success : Bool
  size : Nat
  skipped : Bool
  deriving Repr, DecidableEq

/-- The rsync argument vector built at data-sync.js:127-139; overlay-internal
(`100.`-prefixed) peers skip compression. -/
def rsyncCmdOf (p : SyncPlan) : List String :=
  let isLocalNetwork := match p.remoteHostRaw with
    | some h => strStartsWith h "100."
    | none => false
  [p.rsyncPath, if isLocalNetwork then "-av" else "-avz", "--delete", "--partial",
   "--progress", "--ignore-missing-args", "-e",
   p.sshPath ++ " -o StrictHostKeyChecking=no -o LogLevel=ERROR",
   p.source, p.destination]

/-- The scp fallback argument vector built at data-sync.js:178-182. -/
def scpCmdOf (p : SyncPlan) : List String :=
  [replaceSshSuffix p.sshPath, "-r", "-o", "StrictHostKeyChecking=no", "-o", "LogLevel=ERROR",
   jsInterpOpt p.remoteHost ++ ":" ++ p.remoteDataDir ++ "/*", p.destination]

/-- `execute` (data-sync.js:115-197): run rsync; on success a zero-sized
destination reports a skipped zero-byte success; an rsync error whose message
signals a missing source also reports a skipped zero-byte success; any other
rsync error falls back to scp, and an scp failure raises `SyncError` carrying
the scp error text.  The first component collects the `runWithTimeout`
invocations in order. -/
def dataSyncExecute (t : TransportOracle) (p : SyncPlan) :
    List Attempt × Except JsError SyncExecResult :=
  let rsyncA : Attempt := ⟨rsyncCmdOf p, RSYNC_TIMEOUT⟩
  match t.rsyncOutcome with
  | .ok _ =>
    if t.sizeAfterRsync = 0 then ([rsyncA], .ok ⟨true, 0, true⟩)
    else ([rsyncA], .ok ⟨true, t.sizeAfterRsync, false⟩)
  | .error msg =>
    if jsIncludes msg "No such file" || jsIncludes msg "does not exist" then
      ([rsyncA], .ok ⟨true, 0, true⟩)
    else
      let scpA : Attempt := ⟨scpCmdOf p, RSYNC_TIMEOUT⟩
      match t.scpOutcome with
      | .ok _ => ([rsyncA, scpA], .ok ⟨true, t.sizeAfterScp, false⟩)
      | .error m2 => ([rsyncA, scpA], .error (.syncError ("Failed to sync data: " ++ m2)))

/-- `report` output of data-sync.js:202-221. -/
structure PullReport where
  success : Bool
  syncedSize : Nat
  deriving Repr, DecidableEq

/-- `report` (data-sync.js:202-221); the failure branch (which carries no
size) is unreachable from `execute`, whose non-throwing results all have
`success: true`. -/
def dataSyncReport (r : SyncExecResult) : PullReport :=
  if r.success then { success := true, syncedSize := r.size }
  else { success := false, syncedSize := 0 }

/-- `pullData` (data-sync.js:226-246): no previous runner short-circuits to a
zero-byte success; otherwise parse, validate (throwing `ValidationError`),
plan, execute and report. -/
def pullData (t : TransportOracle) (c : Config) (prev : Option SyncPeer) :
    List Attempt × Except JsError PullReport :=
  match prev with
  | none => ([], .ok { success := true, syncedSize := 0 })
  | some pr =>
    let i := dataSyncParseInput c pr
    match dataSyncValidate i with
    | [] =>
      let er := dataSyncExecute t (dataSyncPlan i)
      (er.1, er.2.map dataSyncReport)
    | errs =>
      ([], .error (.validationError ("Validation failed: " ++ String.intercalate ", " errs)))

/-! ### `ssh.js` `stopServices` (the second definition, lines 127-162, which
is the one the module exports under JS function-hoisting rules) -/

/-- The ssh argument vector of `executeCommand` (ssh.js:18). -/
def sshArgsFor (host command : String) : List String :=
  ["-o", "StrictHostKeyChecking=no", "-o", "ConnectTimeout=10", host, command]

/-- The joined per-service background stop commands (ssh.js:140). -/
def stopCommandsStr (services : List String) : String :=
  String.intercalate " " (services.map (fun s =>
    "(sudo systemctl stop " ++ s ++ " 2>/dev/null || sudo pkill -f " ++ s ++ " 2>/dev/null) &"))

/-- The detached dispatch command of ssh.js:144. -/
def bgCommandStr (services : List String) : String :=
  "nohup sh -c 'sleep 1 && " ++ stopCommandsStr services ++ " wait' >/dev/null 2>&1 & disown"

/-- `stopServices` (ssh.js:127-162) as the list of remote `executeCommand`
invocations it performs: a missing or empty service list returns immediately
with none; otherwise one detached dispatch runs under a 3000 ms foreground
timeout.  Remote failures are caught and logged, never propagated, and the
function returns no value. -/
def sshStopServices (sshPath host : String) (services : Option (List String)) : List Attempt :=
  match services with
  | none => []
  | some ss =>
    if ss.isEmpty then []
    else [⟨sshPath :: sshArgsFor host (bgCommandStr ss), 3000⟩]

/-- The quiesce result of spec §4.5. -/
structure QuiesceResult where
  stopped : List String
  deriving Repr, DecidableEq

/-- Modelled from the spec: `core/service-controller.js`
(`stopRemoteServices`) is not under src/ — only its callers are.  Per §4.5
the quiesce operation returns `{stopped: sequence<string>}`, never raises,
and delegates remote stopping to the SSH adapter's `stopServices`; the
`stopOk` oracle records which services the remote side confirmed stopped. -/
def stopRemoteServices (stopOk : String → Bool) (sshPath host : String)
    (services : List String) : List Attempt × QuiesceResult :=
  (sshStopServices sshPath host (some services), { stopped := services.filter stopOk })

/-! ### `sync-orchestrator.js` -/

/-- One planned stage with its enabled flag (sync-orchestrator.js:42-49). -/
structure Step where
  name : String
  enabled : Bool
  deriving Repr, DecidableEq

/-- `plan` (sync-orchestrator.js:38-51): every enabled flag is computed once
from configuration. -/
def orchestratorPlan (c : Config) : List Step :=
  [⟨"setup_directories", true⟩,
   ⟨"connect_tailscale", c.tailscaleEnable⟩,
   ⟨"detect_previous_runner", c.tailscaleEnable⟩,
   ⟨"pull_data", c.tailscaleEnable⟩,
   ⟨"stop_remote_services", c.tailscaleEnable⟩,
   ⟨"push_to_git", c.gitEnabled⟩]

/-- `setupDirectories` result (success flag; its filesystem work is an
external collaborator). -/
structure SetupReport where
  success : Bool
  deriving Repr, DecidableEq

/-- `connectTailscale` result (sync-orchestrator.js:312-316). -/
structure TsReport where
  success : Bool
  ip : Option String
  hostname : Option String
  deriving Repr, DecidableEq

/-- `stopRemoteServices` result as read back by the orchestrator's `report`
(`results.stopServices?.stoppedServices`). -/
structure StopReport where
  success : Bool
  stoppedServices : List String
  deriving Repr, DecidableEq

/-- `pushToGit` result (sync-orchestrator.js:322-350). -/
structure PushReport where
  success : Bool
  noChanges : Bool
  deriving Repr, DecidableEq

/-- Stored `results.pullData`: either the stage's own report or the inline
`{success: true, skipped: true}` record written when no predecessor exists
(sync-orchestrator.js:88-92). -/
inductive PullStage
  | skipNoRunner
  | ran (r : PullReport)
  deriving Repr, DecidableEq

/-- Stored `results.stopServices` (sync-orchestrator.js:98-105). -/
inductive StopStage
  | skipNoRunner
  | ran (r : StopReport)
  deriving Repr, DecidableEq

/-- Stored `results.pushGit` (sync-orchestrator.js:109-116). -/
inductive PushStage
  | skipNoRunner
  | ran (r : PushReport)
  deriving Repr, DecidableEq

/-- The six stage bodies as oracles: each is the outcome the corresponding
call would produce when the orchestrator invokes it (`.error` models a thrown
error). -/
structure OrchOracles where
  setupDirs : Except JsError SetupReport
  connectTailscale : Except JsError TsReport
  detection : Except JsError DetectReport
  pullData : Except JsError PullReport
  stopServices : Except JsError StopReport
  pushGit : Except JsError PushReport

/-- The orchestrator's results map (sync-orchestrator.js:55); a `none` field
is a key never written. -/
structure OrchResults where
  setupDirs : Option SetupReport
  tailscale : Option TsReport
  detection : Option DetectReport
  pullData : Option PullStage
  stopServices : Option StopStage
  pushGit : Option PushStage
  deriving Repr, DecidableEq

/-- The empty results map the loop starts from. -/
def emptyResults : OrchResults := ⟨none, none, none, none, none, none⟩

/-- The stage loop of `execute` (sync-orchestrator.js:57-126): disabled steps
are skipped; the three post-discovery stages write an inline skip record when
`results.detection?.previousRunner` is absent; a stage error aborts the
remaining stages and propagates. -/
def orchestratorGo (o : OrchOracles) : List Step → OrchResults → Except JsError OrchResults
  | [], r => .ok r
  | s :: rest, r =>
    if !s.enabled then orchestratorGo o rest r
    else
      match s.name with
      | "setup_directories" =>
        match o.setupDirs with
        | .ok v => orchestratorGo o rest { r with setupDirs := some v }
        | .error e => .error e
      | "connect_tailscale" =>
        match o.connectTailscale with
        | .ok v => orchestratorGo o rest { r with tailscale := some v }
        | .error e => .error e
      | "detect_previous_runner" =>
        match o.detection with
        | .ok v => orchestratorGo o rest { r with detection := some v }
        | .error e => .error e
      | "pull_data" =>
        match r.detection.bind DetectReport.previousRunner with
        | none => orchestratorGo o rest { r with pullData := some .skipNoRunner }
        | some _ =>
          match o.pullData with
          | .ok v => orchestratorGo o rest { r with pullData := some (.ran v) }
          | .error e => .error e
      | "stop_remote_services" =>
        match r.detection.bind DetectReport.previousRunner with
        | none => orchestratorGo o rest { r with stopServices := some .skipNoRunner }
        | some _ =>
          match o.stopServices with
          | .ok v => orchestratorGo o rest { r with stopServices := some (.ran v) }
          | .error e => .error e
      | "push_to_git" =>
        match r.detection.bind DetectReport.previousRunner with
        | none => orchestratorGo o rest { r with pushGit := some .skipNoRunner }
        | some _ =>
          match o.pushGit with
          | .ok v => orchestratorGo o rest { r with pushGit := some (.ran v) }
          | .error e => .error e
      | _ => orchestratorGo o rest r

/-- `execute` run over the planned steps. -/
def orchestratorExecute (c : Config) (o : OrchOracles) : Except JsError OrchResults :=
  orchestratorGo o (orchestratorPlan c) emptyResults

/-- `orchestrate` (sync-orchestrator.js:355-371): configuration validation
throws `ValidationError` before any stage; otherwise plan and execute. -/
def orchestrate (c : Config) (o : OrchOracles) : Except JsError OrchResults :=
  match c.validate with
  | [] => orchestratorExecute c o
  | errs =>
    .error (.validationError ("Validation failed:\n  - " ++ String.intercalate "\n  - " errs))


/-! ### Selection specification and concrete run data used by the
verification theorems -/

/-- The earliest element of a list attaining the maximal key: the value the
stable descending sort of the detector places first. -/
def firstMaxByKey (k : Peer → Int) : List Peer → Option Peer
  | [] => none
  | x :: xs =>
    match firstMaxByKey k xs with
    | none => some x
    | some m => if k m ≤ k x then some x else some m

def selfC1 : SelfInfo := ⟨"self-id", ["100.64.0.1"]⟩

def infoC1 : PeerInfo :=
  ⟨"runner-02", some "runner-02.ts.net.", ["100.64.0.2"], ["tag:ci"], true,
   some "2024-06-01T00:00:00Z", some "2024-05-01T00:00:00Z"⟩

def stC1 : Status := ⟨some selfC1, some [("peer-1", infoC1)]⟩

def selfC2 : SelfInfo := ⟨"self-id", ["100.64.0.1", "fd7a::1"]⟩

def infoC2 : PeerInfo :=
  ⟨"ghost", some "ghost.ts.net.", ["100.64.0.1"], ["tag:ci"], true, some "ls", none⟩

def stC2 : Status := ⟨some selfC2, some [("peer-ghost", infoC2)]⟩

def oC2 : SshOracle := ⟨fun _ => true, fun _ _ => some "yes"⟩

def dpC2 : String → Int := fun _ => 0

def pC2 : Peer :=
  ⟨"peer-ghost", "ghost", some "ghost.ts.net", ["100.64.0.1"], true, some "ls", ["tag:ci"]⟩

def selfC2w : SelfInfo := ⟨"self-id", ["100.64.0.1"]⟩

def infoC2w : PeerInfo :=
  ⟨"runner-9", none, ["100.64.0.9"], ["tag:ci"], true, some "ls9", none⟩

def stC2w : Status := ⟨some selfC2w, some [("peer-9", infoC2w)]⟩

def pC2w : Peer := ⟨"peer-9", "runner-9", none, ["100.64.0.9"], true, some "ls9", ["tag:ci"]⟩

def infoC3A : PeerInfo :=
  ⟨"runner-A", none, ["100.64.0.10"], ["tag:ci"], true, some "lsA", some "crA"⟩

def infoC3B : PeerInfo :=
  ⟨"runner-B", none, ["100.64.0.11"], ["tag:ci"], true, some "lsB", some "crB"⟩

def stC3 : Status := ⟨some ⟨"self-id", ["100.64.0.1"]⟩, some [("A", infoC3A), ("B", infoC3B)]⟩

def dpC3 : String → Int := fun s =>
  if s = "lsA" then 50 else if s = "lsB" then 60
  else if s = "crA" then 200 else if s = "crB" then 100 else 0

def oC3 : SshOracle := ⟨fun _ => true, fun _ _ => some "yes"⟩

def pC3w : Peer := ⟨"B", "runner-B", none, ["100.64.0.11"], true, some "lsB", ["tag:ci"]⟩

def infoC4 : PeerInfo :=
  ⟨"runner-D", none, ["100.64.0.40"], ["tag:ci"], true, some "lsD", none⟩

def stC4 : Status := ⟨some ⟨"self-id", ["100.64.0.1"]⟩, some [("D", infoC4)]⟩

def oC4 : SshOracle := ⟨fun _ => true, fun _ _ => some "yes"⟩

def dpC4 : String → Int := fun _ => 0

def pC4 : Peer := ⟨"D", "runner-D", none, ["100.64.0.40"], true, some "lsD", ["tag:ci"]⟩

def infoC5 : PeerInfo :=
  ⟨"runner-C", none, ["100.64.0.30"], ["tag:ci"], true, some "lsC", none⟩

def stC5 : Status := ⟨some ⟨"self-id", ["100.64.0.1"]⟩, some [("C", infoC5)]⟩

def oC5 : SshOracle := ⟨fun _ => false, fun _ _ => none⟩

def dpC5 : String → Int := fun _ => 0

def cfgC6 : Config := ⟨"/w/.runner-data", "", "", "tag:ci", false, [], true, "main", "ssh", "rsync"⟩

def prC6 : SyncPeer := ⟨["100.64.0.2"], none⟩

def tC6 : TransportOracle := ⟨.ok (), .ok (), 0, 0⟩

def cfgC7 : Config := ⟨"/w/.runner-data", "", "", "tag:ci", false, [], true, "main", "ssh", "rsync"⟩

def prC7 : SyncPeer := ⟨["203.0.113.7"], none⟩

def tC7 : TransportOracle := ⟨.error "rsync exploded", .error "scp exploded", 0, 0⟩

def pC8 : Peer := ⟨"P", "runner-P", none, ["100.64.0.8"], true, some "lsP", ["tag:ci"]⟩

def dC8 : DetectReport := ⟨true, some pC8⟩

def cfgC8 : Config :=
  ⟨"/w/.runner-data", "id", "secret", "tag:ci", true, ["svc"], false, "main", "ssh", "rsync"⟩

def oraC8 : OrchOracles :=
  ⟨.ok ⟨true⟩, .ok ⟨true, some "100.64.0.1", some "runner-1"⟩, .ok dC8,
   .ok ⟨true, 42⟩, .ok ⟨true, ["svc"]⟩, .ok ⟨true, false⟩⟩

def envC10 : Env :=
  ⟨none, none, none, some "true", none, some "1", none, none, none⟩


/-! ### Helper lemmas about the stable descending sort and the selection -/

theorem mem_of_mem_insertByKeyDesc {k : Peer → Int} {x p : Peer} {l : List Peer}
    (h : p ∈ insertByKeyDesc k x l) : p = x ∨ p ∈ l := by
  induction l with
  | nil =>
    simp only [insertByKeyDesc] at h
    exact .inl (List.mem_singleton.mp h)
  | cons y ys ih =>
    by_cases hc : k y ≤ k x
    · simp only [insertByKeyDesc, if_pos hc] at h
      rcases List.mem_cons.mp h with h | h
      · exact .inl h
      · exact .inr h
    · simp only [insertByKeyDesc, if_neg hc] at h
      rcases List.mem_cons.mp h with h | h
      · exact .inr (List.mem_cons.mpr (.inl h))
      · rcases ih h with h | h
        · exact .inl h
        · exact .inr (List.mem_cons.mpr (.inr h))

theorem mem_of_mem_sortByKeyDesc {k : Peer → Int} {p : Peer} {l : List Peer}
    (h : p ∈ sortByKeyDesc k l) : p ∈ l := by
  induction l with
  | nil => simp only [sortByKeyDesc] at h; exact absurd h (List.not_mem_nil p)
  | cons x xs ih =>
    simp only [sortByKeyDesc] at h
    rcases mem_of_mem_insertByKeyDesc h with h' | h'
    · exact List.mem_cons.mpr (.inl h')
    · exact List.mem_cons.mpr (.inr (ih h'))

theorem firstMaxByKey_cons_none {k : Peer → Int} {xs : List Peer} (x : Peer)
    (hm : firstMaxByKey k xs = none) : firstMaxByKey k (x :: xs) = some x := by
  simp [firstMaxByKey, hm]

theorem firstMaxByKey_cons_some {k : Peer → Int} {xs : List Peer} {m : Peer} (x : Peer)
    (hm : firstMaxByKey k xs = some m) :
    firstMaxByKey k (x :: xs) = if k m ≤ k x then some x else some m := by
  simp [firstMaxByKey, hm]

theorem head_insertByKeyDesc_cons {k : Peer → Int} (x y : Peer) (ys : List Peer) :
    (insertByKeyDesc k x (y :: ys)).head? = if k y ≤ k x then some x else some y := by
  by_cases hc : k y ≤ k x <;> simp [insertByKeyDesc, hc]

theorem sortByKeyDesc_head_eq_firstMax (k : Peer → Int) (l : List Peer) :
    (sortByKeyDesc k l).head? = firstMaxByKey k l := by
  induction l with
  | nil => rfl
  | cons x xs ih =>
    simp only [sortByKeyDesc]
    cases hs : sortByKeyDesc k xs with
    | nil =>
      rw [hs] at ih
      rw [firstMaxByKey_cons_none x (by rw [← ih]; rfl)]
      rfl
    | cons y ys =>
      rw [hs] at ih
      rw [firstMaxByKey_cons_some x (show firstMaxByKey k xs = some y by rw [← ih]; rfl),
        head_insertByKeyDesc_cons]

theorem eq_nil_of_firstMaxByKey_eq_none {k : Peer → Int} {l : List Peer}
    (h : firstMaxByKey k l = none) : l = [] := by
  cases l with
  | nil => rfl
  | cons z zs =>
    exfalso
    cases hz : firstMaxByKey k zs with
    | none => rw [firstMaxByKey_cons_none z hz] at h; cases h
    | some w =>
      rw [firstMaxByKey_cons_some z hz] at h
      by_cases hc : k w ≤ k z
      · rw [if_pos hc] at h; cases h
      · rw [if_neg hc] at h; cases h

theorem firstMaxByKey_mem {k : Peer → Int} {l : List Peer} {p : Peer}
    (h : firstMaxByKey k l = some p) : p ∈ l := by
  rw [← sortByKeyDesc_head_eq_firstMax] at h
  apply mem_of_mem_sortByKeyDesc (k := k)
  cases hs : sortByKeyDesc k l with
  | nil => rw [hs] at h; cases h
  | cons a as =>
    rw [hs] at h
    injection h with h
    subst h
    exact List.mem_cons_self _ _

theorem firstMaxByKey_le {k : Peer → Int} {l : List Peer} :
    ∀ {p : Peer}, firstMaxByKey k l = some p → ∀ q ∈ l, k q ≤ k p := by
  induction l with
  | nil => intro p h; simp [firstMaxByKey] at h
  | cons x xs ih =>
    intro p h q hq
    cases hm : firstMaxByKey k xs with
    | none =>
      rw [firstMaxByKey_cons_none x hm] at h
      injection h with h
      subst h
      rcases List.mem_cons.mp hq with rfl | hq'
      · exact le_refl _
      · rw [eq_nil_of_firstMaxByKey_eq_none hm] at hq'
        exact absurd hq' (List.not_mem_nil q)
    | some m =>
      rw [firstMaxByKey_cons_some x hm] at h
      by_cases hc : k m ≤ k x
      · rw [if_pos hc] at h
        injection h with h
        subst h
        rcases List.mem_cons.mp hq with rfl | hq'
        · exact le_refl _
        · exact le_trans (ih hm q hq') hc
      · rw [if_neg hc] at h
        injection h with h
        subst h
        rcases List.mem_cons.mp hq with rfl | hq'
        · exact (not_le.mp hc).le
        · exact ih hm q hq'

theorem head_sortByKeyDesc_mem {k : Peer → Int} {l : List Peer} {p : Peer}
    (h : (sortByKeyDesc k l).head? = some p) : p ∈ l := by
  rw [sortByKeyDesc_head_eq_firstMax] at h
  exact firstMaxByKey_mem h

theorem peerEntryKeep_some_inv {tagList : List String} {selfId : Option String}
    {e : String × PeerInfo} {q : Peer} (h : peerEntryKeep tagList selfId e = some q) :
    selfSkip selfId e.1 = false ∧ q.id = e.1 := by
  unfold peerEntryKeep at h
  by_cases hsk : selfSkip selfId e.1 = true
  · rw [if_pos hsk] at h; cases h
  · rw [if_neg hsk] at h
    dsimp only at h
    by_cases hko : ((if tagList.isEmpty then true
        else tagList.any fun t => e.2.Tags.contains t) && e.2.Online) = true
    · rw [if_pos hko] at h
      injection h with h
      exact ⟨by simpa using hsk, by rw [← h]⟩
    · rw [if_neg hko] at h; cases h

theorem findPeers_id_ne_self {tagList : List String} {st : Status} {si : SelfInfo} {q : Peer}
    (hs : st.Self = some si) (hq : q ∈ findPeersWithTagList tagList (some st)) :
    q.id ≠ si.ID := by
  cases hP : st.Peer with
  | none =>
    rw [show findPeersWithTagList tagList (some st) = [] from by
      simp [findPeersWithTagList, hP]] at hq
    exact absurd hq (List.not_mem_nil q)
  | some entries =>
    rw [show findPeersWithTagList tagList (some st)
        = entries.filterMap (peerEntryKeep tagList (some si.ID)) from by
      simp [findPeersWithTagList, hP, hs]] at hq
    obtain ⟨e, he, hkeep⟩ := List.mem_filterMap.mp hq
    obtain ⟨hsk, hid⟩ := peerEntryKeep_some_inv hkeep
    rw [hid]
    intro hcontra
    simp [selfSkip, hcontra] at hsk

theorem detectorExecute_peer_mem {dp : String → Int} {o : SshOracle} {tags : List String}
    {st : Option Status} {p : Peer}
    (h : (detectorExecute dp o tags st).peer = some p) :
    p ∈ detectorCandidates o tags st := by
  simp only [detectorExecute] at h
  split at h
  · cases h
  · cases hh : (sortByKeyDesc (lastSeenKey dp) (detectorCandidates o tags st)).head? with
    | none => rw [hh] at h; cases h
    | some q =>
      rw [hh] at h
      injection h with h
      subst h
      exact head_sortByKeyDesc_mem hh

theorem detectorExecute_peer_eq_firstMax (dp : String → Int) (o : SshOracle)
    (tags : List String) (st : Option Status) :
    (detectorExecute dp o tags st).peer
      = firstMaxByKey (lastSeenKey dp) (detectorCandidates o tags st) := by
  simp only [detectorExecute]
  split
  · rename_i hemp
    have hnil : findPeersWithTagList tags st = [] := by simpa using hemp
    simp [detectorCandidates, hnil, firstMaxByKey]
  · rw [← sortByKeyDesc_head_eq_firstMax]
    cases hh : (sortByKeyDesc (lastSeenKey dp) (detectorCandidates o tags st)).head? with
    | none => simp [hh]
    | some q => simp [hh]

/-! ### Helper lemmas about the data-sync pipeline -/

theorem parseInput_localDataDir (c : Config) (pr : SyncPeer) :
    (dataSyncParseInput c pr).localDataDir = c.runnerDataDir := rfl

theorem parseInput_remoteHost (c : Config) (pr : SyncPeer) :
    (dataSyncParseInput c pr).remoteHost
      = pr.ips.head?.map (fun x => (dataSyncParseInput c pr).remoteUser ++ "@" ++ x) := rfl

theorem userAtHost_ne_empty (u h : String) : u ++ "@" ++ h ≠ "" := by
  intro heq
  have hd := congrArg String.data heq
  simp [String.data_append, show ("@" : String).data = ['@'] from rfl] at hd

theorem dataSyncValidate_ok {c : Config} {pr : SyncPeer} {hh : String} {hs : List String}
    (hlocal : c.runnerDataDir ≠ "") (hips : pr.ips = hh :: hs) :
    dataSyncValidate (dataSyncParseInput c pr) = [] := by
  have h2 := parseInput_remoteHost c pr
  rw [hips] at h2
  simp only [List.head?, Option.map] at h2
  simp [dataSyncValidate, parseInput_localDataDir, hlocal, h2, optFalsy,
    userAtHost_ne_empty]

/-! ### Claim C1 -/

/-- C1 (counterexample): the peer `peer-1` is online, distinct from self and
tagged `tag:ci`, yet `findPeersWithTag` includes it under the filter value
`tag:ci` and excludes it under the filter value `ci` — the two filter values
are not treated identically. -/
theorem tagFilter_ci_counterexample :
    (findPeersWithTag "tag:ci" (some stC1)).map Peer.id = ["peer-1"] ∧
    findPeersWithTag "ci" (some stC1) = [] := by
  decide

/-- C1 (amended): tag filter values are comma-separated and trimmed, then
compared literally against the peer tag set with no `tag:` normalization: an
online, non-self peer whose tags contain `tag:ci` (and do not literally
contain `ci`) is included under the filter value `tag:ci` and excluded under
the filter value `ci`. -/
theorem tagFilter_literal_match (si : SelfInfo) (pid : String) (info : PeerInfo)
    (hself : pid ≠ si.ID) (hon : info.Online = true)
    (htag : info.Tags.contains "tag:ci" = true)
    (hci : info.Tags.contains "ci" = false) :
    (findPeersWithTag "tag:ci" (some ⟨some si, some [(pid, info)]⟩)).map Peer.id = [pid] ∧
    findPeersWithTag "ci" (some ⟨some si, some [(pid, info)]⟩) = [] := by
  have h1 : parseTags "tag:ci" = ["tag:ci"] := by decide
  have h2 : parseTags "ci" = ["ci"] := by decide
  have hskip : selfSkip (some si.ID) pid = false := by
    simp [selfSkip, hself]
  have htag' : "tag:ci" ∈ info.Tags := by simpa using htag
  have hci' : "ci" ∉ info.Tags := by simpa using hci
  constructor
  · simp [findPeersWithTag, findPeersWithTagList, h1, List.filterMap_cons, peerEntryKeep,
      hskip, htag', hon]
  · simp [findPeersWithTag, findPeersWithTagList, h2, List.filterMap_cons, peerEntryKeep,
      hskip, hci', hon]

/-- C1 witness for the amended theorem at a concrete peer. -/
theorem tagFilter_literal_match_witness :
    (findPeersWithTag "tag:ci" (some ⟨some selfC1, some [("peer-1", infoC1)]⟩)).map Peer.id
      = ["peer-1"] ∧
    findPeersWithTag "ci" (some ⟨some selfC1, some [("peer-1", infoC1)]⟩) = [] :=
  tagFilter_literal_match selfC1 "peer-1" infoC1
    (by decide) (by decide) (by decide) (by decide)

/-! ### Claim C2 -/

/-- C2 (counterexample): a peer whose peer-map key differs from `Self.ID` but
whose address set intersects the local node address set is selected as
predecessor: self-exclusion is not decided by comparing address sets. -/
theorem selfExclusion_counterexample :
    detectPreviousRunner dpC2 oC2 "tag:ci" (some stC2) = .ok ⟨true, some pC2⟩ ∧
    pC2.ips.any (fun a => selfC2.TailscaleIPs.contains a) = true := by
  decide

/-- C2 (amended): self-exclusion compares identity strings, not address
sets: a peer is skipped exactly when its key in the peer map equals
`Self.ID`, so the selected predecessor (when the local node is present in
the status) never carries the local node ID — but it may share addresses
with the local node. -/
theorem selfExclusion_by_id (dp : String → Int) (o : SshOracle) (tags : List String)
    (st : Status) (si : SelfInfo) (p : Peer)
    (hs : st.Self = some si)
    (hp : (detectorExecute dp o tags (some st)).peer = some p) :
    p.id ≠ si.ID := by
  have hmem := detectorExecute_peer_mem hp
  unfold detectorCandidates at hmem
  have h1 := List.mem_filter.mp hmem
  have h2 := List.mem_filter.mp h1.1
  exact findPeers_id_ne_self hs h2.1

/-- C2 witness for the amended theorem at a concrete run. -/
theorem selfExclusion_by_id_witness : pC2w.id ≠ selfC2w.ID :=
  selfExclusion_by_id dpC2 oC2 ["tag:ci"] stC2w selfC2w pC2w rfl (by decide)

/-! ### Claim C3 -/

/-- C3 (counterexample): peers `A` and `B` are both confirmed candidates,
`A` has the most recent registration (`Created`) timestamp, yet the selector
returns `B`, whose `lastSeen` timestamp is the most recent — selection is
not by registration timestamp. -/
theorem selection_registration_counterexample :
    (detectorExecute dpC3 oC3 ["tag:ci"] (some stC3)).peer.map Peer.id = some "B" ∧
    (detectorCandidates oC3 ["tag:ci"] (some stC3)).map Peer.id = ["A", "B"] ∧
    infoC3A.Created = some "crA" ∧ infoC3B.Created = some "crB" ∧
    dpC3 "crB" < dpC3 "crA" := by
  decide

/-- C3 (amended): among the confirmed candidates the selector returns the
peer with the most recent parsed `lastSeen` timestamp (absent `lastSeen`
parsing as 0), not the registration timestamp; when two candidates have
equal `lastSeen` values the one earlier in iteration order is returned
(the result is exactly `firstMaxByKey`, the earliest element attaining the
maximal key, whose key dominates the key of every candidate). -/
theorem selection_most_recent_lastSeen (dp : String → Int) (o : SshOracle)
    (tags : List String) (st : Option Status) :
    (detectorExecute dp o tags st).peer
      = firstMaxByKey (lastSeenKey dp) (detectorCandidates o tags st) ∧
    ∀ p, (detectorExecute dp o tags st).peer = some p →
      p ∈ detectorCandidates o tags st ∧
      ∀ q ∈ detectorCandidates o tags st, lastSeenKey dp q ≤ lastSeenKey dp p := by
  refine ⟨detectorExecute_peer_eq_firstMax dp o tags st, ?_⟩
  intro p hp
  have h2 : firstMaxByKey (lastSeenKey dp) (detectorCandidates o tags st) = some p := by
    rw [← detectorExecute_peer_eq_firstMax]; exact hp
  exact ⟨detectorExecute_peer_mem hp, firstMaxByKey_le h2⟩

/-- C3 witness for the amended theorem at a concrete run. -/
theorem selection_most_recent_lastSeen_witness :
    pC3w ∈ detectorCandidates oC3 ["tag:ci"] (some stC3) :=
  ((selection_most_recent_lastSeen dpC3 oC3 ["tag:ci"] (some stC3)).2 pC3w (by decide)).1

/-! ### Claim C4 -/

/-- C4: a run returns at most one predecessor (the result is an optional
peer), and a returned predecessor passed the reachability probe and the
remote data-presence check. -/
theorem predecessor_unique_reachable_hasData (dp : String → Int) (o : SshOracle)
    (tags : List String) (st : Option Status) :
    (detectorExecute dp o tags st).peer.toList.length ≤ 1 ∧
    ∀ p, (detectorExecute dp o tags st).peer = some p →
      accessibleOf o p = true ∧ hasDataOf o p = true := by
  constructor
  · cases (detectorExecute dp o tags st).peer <;> simp
  · intro p hp
    have h := detectorExecute_peer_mem hp
    unfold detectorCandidates at h
    have h1 := List.mem_filter.mp h
    have h2 := List.mem_filter.mp h1.1
    exact ⟨h2.2, h1.2⟩

/-- C4 witness at a concrete run. -/
theorem predecessor_unique_reachable_hasData_witness :
    accessibleOf oC4 pC4 = true ∧ hasDataOf oC4 pC4 = true :=
  (predecessor_unique_reachable_hasData dpC4 oC4 ["tag:ci"] (some stC4)).2 pC4 (by decide)

/-! ### Claim C5 -/

/-- C5: when every tag-matching online peer fails the SSH probe (in
particular when the only matching peer does), `detectPreviousRunner`
completes normally with a success report whose predecessor is null, raising
no error. -/
theorem probe_failure_reports_no_predecessor (dp : String → Int) (o : SshOracle)
    (tags : String) (st : Option Status)
    (htags : parseTags tags ≠ [])
    (hprobe : ∀ p ∈ findPeersWithTagList (parseTags tags) st, accessibleOf o p = false) :
    detectPreviousRunner dp o tags st = .ok { success := true, previousRunner := none } := by
  have hne : (parseTags tags).isEmpty = false := by
    cases hpt : parseTags tags with
    | nil => exact absurd hpt htags
    | cons a as => rfl
  have hpeer : (detectorExecute dp o (parseTags tags) st).peer = none := by
    rw [detectorExecute_peer_eq_firstMax]
    have hacc : (findPeersWithTagList (parseTags tags) st).filter (accessibleOf o) = [] := by
      rw [List.filter_eq_nil_iff]
      intro a ha
      simp [hprobe a ha]
    unfold detectorCandidates
    rw [hacc]
    rfl
  simp only [detectPreviousRunner, hne, Bool.false_eq_true, if_false]
  rw [hpeer]

/-- C5 witness: the only matching peer is online but its probe fails. -/
theorem probe_failure_reports_no_predecessor_witness :
    detectPreviousRunner dpC5 oC5 "tag:ci" (some stC5) = .ok ⟨true, none⟩ :=
  probe_failure_reports_no_predecessor dpC5 oC5 "tag:ci" (some stC5) (by decide) (by decide)

/-! ### Claim C6 -/

/-- C6: against a missing remote directory (an rsync failure whose message
signals a missing source) or a confirmed-empty one (rsync succeeds and the
mirrored destination holds zero bytes), `pullData` returns a success report
with zero transferred bytes and raises no error. -/
theorem empty_remote_zero_bytes (t : TransportOracle) (c : Config) (pr : SyncPeer)
    (hlocal : c.runnerDataDir ≠ "") (hip : pr.ips ≠ [])
    (hempty : (t.rsyncOutcome = .ok () ∧ t.sizeAfterRsync = 0) ∨
      ∃ m, t.rsyncOutcome = .error m ∧
        (jsIncludes m "No such file" = true ∨ jsIncludes m "does not exist" = true)) :
    (pullData t c (some pr)).2 = .ok { success := true, syncedSize := 0 } := by
  cases hips : pr.ips with
  | nil => exact absurd hips hip
  | cons hh hs =>
    have hval := dataSyncValidate_ok hlocal hips
    rcases hempty with ⟨hok, hsz⟩ | ⟨m, herr, hinc⟩
    · simp [pullData, hval, dataSyncExecute, hok, hsz, dataSyncReport, Except.map]
    · have hcond : (jsIncludes m "No such file" || jsIncludes m "does not exist") = true := by
        rcases hinc with h | h <;> simp [h]
      simp [pullData, hval, dataSyncExecute, herr, hcond, dataSyncReport, Except.map]

/-- C6 witness: rsync succeeds and the destination is empty. -/
theorem empty_remote_zero_bytes_witness :
    (pullData tC6 cfgC6 (some prC6)).2 = .ok { success := true, syncedSize := 0 } :=
  empty_remote_zero_bytes tC6 cfgC6 prC6 (by decide) (by decide) (.inl ⟨rfl, rfl⟩)

/-! ### Claim C7 -/

/-- C7: when rsync fails (with a message not signalling a missing source)
and the scp fallback also fails, `pullData` raises the sync error carrying
the fallback transport failure text, and the two transport attempts each ran
under their own independent `RSYNC_TIMEOUT`. -/
theorem transport_exhaustion_syncError (t : TransportOracle) (c : Config) (pr : SyncPeer)
    (m₁ m₂ : String)
    (hlocal : c.runnerDataDir ≠ "") (hip : pr.ips ≠ [])
    (h1 : t.rsyncOutcome = .error m₁)
    (hn1 : jsIncludes m₁ "No such file" = false)
    (hn2 : jsIncludes m₁ "does not exist" = false)
    (h2 : t.scpOutcome = .error m₂) :
    (pullData t c (some pr)).2 = .error (.syncError ("Failed to sync data: " ++ m₂)) ∧
    ∃ a₁ a₂, (pullData t c (some pr)).1 = [a₁, a₂] ∧
      a₁.timeoutMs = RSYNC_TIMEOUT ∧ a₂.timeoutMs = RSYNC_TIMEOUT := by
  cases hips : pr.ips with
  | nil => exact absurd hips hip
  | cons hh hs =>
    have hval := dataSyncValidate_ok hlocal hips
    have hcond : (jsIncludes m₁ "No such file" || jsIncludes m₁ "does not exist") = false := by
      simp [hn1, hn2]
    refine ⟨?_, ⟨rsyncCmdOf (dataSyncPlan (dataSyncParseInput c pr)), RSYNC_TIMEOUT⟩,
      ⟨scpCmdOf (dataSyncPlan (dataSyncParseInput c pr)), RSYNC_TIMEOUT⟩, ?_, rfl, rfl⟩
    · simp [pullData, hval, dataSyncExecute, h1, hcond, h2, Except.map]
    · simp [pullData, hval, dataSyncExecute, h1, hcond, h2]

/-- C7 witness: both transports fail with distinct messages. -/
theorem transport_exhaustion_syncError_witness :
    (pullData tC7 cfgC7 (some prC7)).2
      = .error (.syncError ("Failed to sync data: " ++ "scp exploded")) :=
  (transport_exhaustion_syncError tC7 cfgC7 prC7 "rsync exploded" "scp exploded"
    (by decide) (by decide) rfl (by decide) (by decide) rfl).1

/-! ### Claim C8 -/

/-- C8: with a predecessor found and the publish-enabled flag false, the
orchestrator runs `pull_data` and `stop_remote_services` to completion
(storing their stage reports) and never runs `push_to_git` (its results key
stays unwritten); the enabled flag of every stage is fixed at planning time
from configuration alone. -/
theorem publish_disabled_skips_push (c : Config) (o : OrchOracles)
    (hts : c.tailscaleEnable = true) (hgit : c.gitEnabled = false)
    (sd : SetupReport) (ts : TsReport) (d : DetectReport) (p : Peer)
    (pr : PullReport) (sr : StopReport)
    (hsd : o.setupDirs = .ok sd) (hct : o.connectTailscale = .ok ts)
    (hd : o.detection = .ok d) (hp : d.previousRunner = some p)
    (hpr : o.pullData = .ok pr) (hsr : o.stopServices = .ok sr) :
    orchestratorPlan c =
      [⟨"setup_directories", true⟩, ⟨"connect_tailscale", true⟩,
       ⟨"detect_previous_runner", true⟩, ⟨"pull_data", true⟩,
       ⟨"stop_remote_services", true⟩, ⟨"push_to_git", false⟩] ∧
    orchestratorExecute c o =
      .ok { setupDirs := some sd, tailscale := some ts, detection := some d,
            pullData := some (.ran pr), stopServices := some (.ran sr),
            pushGit := none } := by
  constructor
  · simp [orchestratorPlan, hts, hgit]
  · simp [orchestratorExecute, orchestratorPlan, hts, hgit, orchestratorGo,
      emptyResults, hsd, hct, hd, hp, hpr, hsr]

/-- C8 witness at a concrete configuration and concrete stage outcomes. -/
theorem publish_disabled_skips_push_witness :
    orchestratorExecute cfgC8 oraC8 =
      .ok { setupDirs := some ⟨true⟩,
            tailscale := some ⟨true, some "100.64.0.1", some "runner-1"⟩,
            detection := some dC8, pullData := some (.ran ⟨true, 42⟩),
            stopServices := some (.ran ⟨true, ["svc"]⟩), pushGit := none } :=
  (publish_disabled_skips_push cfgC8 oraC8 rfl rfl ⟨true⟩
    ⟨true, some "100.64.0.1", some "runner-1"⟩ dC8 pC8 ⟨true, 42⟩ ⟨true, ["svc"]⟩
    rfl rfl rfl rfl rfl rfl).2

/-! ### Claim C9 -/

/-- C9: quiescing with an empty service list performs zero remote calls and
immediately returns a result whose stopped-list is empty; a missing service
list likewise performs zero remote calls. -/
theorem quiesce_empty_noop (stopOk : String → Bool) (sshPath host : String) :
    stopRemoteServices stopOk sshPath host [] = ([], { stopped := [] }) ∧
    sshStopServices sshPath host none = [] :=
  ⟨rfl, rfl⟩

/-! ### Claim C10 -/

/-- C10: the overlay-participation flag is enabled exactly when the trimmed
`TAILSCALE_ENABLE` value is the string `"1"` (any other value, including
`"true"`, `"yes"` or `"01"`, leaves it disabled); when it is disabled,
configuration validation returns no errors even with missing Tailscale
credentials, and all Tailscale-dependent stages are planned disabled. -/
theorem tailscaleEnable_iff_trimmed_one :
    (∀ e : Option String, tailscaleEnableOf e = true ↔ e.map jsTrim = some "1") ∧
    (∀ (rd : String) (e : Env), tailscaleEnableOf e.TAILSCALE_ENABLE = false →
      (Config.ofEnv rd e).validate = []) ∧
    (∀ c : Config, c.tailscaleEnable = false →
      ∀ s ∈ orchestratorPlan c, s.enabled = true →
        s.name = "setup_directories" ∨ s.name = "push_to_git") := by
  refine ⟨?_, ?_, ?_⟩
  · intro e
    cases e with
    | none => simp [tailscaleEnableOf]
    | some s => simp [tailscaleEnableOf]
  · intro rd e h
    simp [Config.validate, Config.ofEnv, h]
  · intro c h s hs he
    simp only [orchestratorPlan, List.mem_cons, List.not_mem_nil, or_false] at hs
    rcases hs with rfl | rfl | rfl | rfl | rfl | rfl
    · exact .inl rfl
    · rw [h] at he; cases he
    · rw [h] at he; cases he
    · rw [h] at he; cases he
    · rw [h] at he; cases he
    · exact .inr rfl

/-- C10 witness: a value trimming to `"1"` enables the flag; a `"true"`
value stays disabled and validation passes without credentials. -/
theorem tailscaleEnable_iff_trimmed_one_witness :
    tailscaleEnableOf (some " 1 ") = true ∧ (Config.ofEnv "/w" envC10).validate = [] :=
  ⟨(tailscaleEnable_iff_trimmed_one.1 (some " 1 ")).mpr (by decide),
   tailscaleEnable_iff_trimmed_one.2.1 "/w" envC10 (by decide)⟩

end RunnerSync
